import Mathlib

/-!
Shallow embedding of `utils/validate.py` (BrainMark Chrome-extension
pre-flight validator) and verification of the specification's claims.

The script is modelled as a pure function from a filesystem state to the
trace of filesystem events it performs, the list of lines it prints, and
its outcome (an exit code, or an uncaught Python exception).
-/

namespace BrainMark

/-- Python values as produced by `json.load`: `None`, booleans, integers,
strings, lists and dicts (a dict is a key-value association list). -/
inductive PyVal where
  | none : PyVal
  | bool : Bool → PyVal
  | int : Int → PyVal
  | str : String → PyVal
  | list : List PyVal → PyVal
  | dict : List (String × PyVal) → PyVal

/-- Python truthiness: `None`, `False`, `0`, `""`, `[]` and `{}` are falsy,
everything else is truthy. -/
def pyTruthy : PyVal → Bool
  | PyVal.none => false
  | PyVal.bool b => b
  | PyVal.int n => n != 0
  | PyVal.str s => s != ""
  | PyVal.list xs => !xs.isEmpty
  | PyVal.dict kvs => !kvs.isEmpty

/-- Name of the Python type of a value, as it appears in error messages. -/
def pyTypeName : PyVal → String
  | PyVal.none => "NoneType"
  | PyVal.bool _ => "bool"
  | PyVal.int _ => "int"
  | PyVal.str _ => "str"
  | PyVal.list _ => "list"
  | PyVal.dict _ => "dict"

/-- Message of the `AttributeError` raised by `v.get(...)` when `v` is not
a dict. -/
def attrGetMsg (v : PyVal) : String :=
  "AttributeError: \x27" ++ pyTypeName v ++ "\x27 object has no attribute \x27get\x27"

/-- Python `v.get(key)`: on a dict, the stored value or `None`; on any
other value, an `AttributeError` (there is no `get` attribute). -/
def pyGet (v : PyVal) (key : String) : Except String PyVal :=
  match v with
  | PyVal.dict kvs => Except.ok ((List.lookup key kvs).getD PyVal.none)
  | _ => Except.error (attrGetMsg v)

mutual

/-- Python `repr` of a parsed-JSON value. -/
def pyRepr : PyVal → String
  | PyVal.none => "None"
  | PyVal.bool true => "True"
  | PyVal.bool false => "False"
  | PyVal.int n => toString n
  | PyVal.str s => "\x27" ++ s ++ "\x27"
  | PyVal.list xs => "[" ++ pyReprList xs ++ "]"
  | PyVal.dict kvs => "\x7b" ++ pyReprDict kvs ++ "\x7d"

/-- Comma-separated `repr`s of list elements. -/
def pyReprList : List PyVal → String
  | [] => ""
  | [x] => pyRepr x
  | x :: y :: rest => pyRepr x ++ ", " ++ pyReprList (y :: rest)

/-- Comma-separated `repr`s of dict entries. -/
def pyReprDict : List (String × PyVal) → String
  | [] => ""
  | [(k, v)] => "\x27" ++ k ++ "\x27: " ++ pyRepr v
  | (k, v) :: e :: rest => "\x27" ++ k ++ "\x27: " ++ pyRepr v ++ ", " ++ pyReprDict (e :: rest)

end

/-- Python `str` of a parsed-JSON value (as interpolated into f-strings):
a string prints as itself, everything else as its `repr`. -/
def pyStr : PyVal → String
  | PyVal.str s => s
  | v => pyRepr v

/-- Result of opening and `json.load`-ing a file: parsed data, a
`json.JSONDecodeError` (with its message), or any other exception while
opening or reading (with its message), e.g. `FileNotFoundError`. -/
inductive JsonReadResult where
  | ok : PyVal → JsonReadResult
  | decodeError : String → JsonReadResult
  | readError : String → JsonReadResult

/-- Whether a `JsonReadResult` is a successful parse. -/
def isOkB : JsonReadResult → Bool
  | JsonReadResult.ok _ => true
  | _ => false

/-- A filesystem state, as far as the script can observe it: whether a path
exists (`os.path.exists`), its size in bytes (`os.path.getsize`), and the
outcome of opening and JSON-parsing a path. -/
structure FS where
  pathExists : String → Bool
  pathSize : String → Nat
  readJson : String → JsonReadResult

/-- A filesystem access performed by the script.  The script only ever
performs the three read-only kinds; `writeE` and `deleteE` exist so that
the absence of writes and deletes is expressible. -/
inductive Event where
  | statE : String → Event
  | sizeE : String → Event
  | openE : String → Event
  | writeE : String → Event
  | deleteE : String → Event
deriving DecidableEq

deriving instance DecidableEq for Except

/-- Outcome of running `main`: the trace of filesystem events, the lines
printed to stdout, and either a return value (the exit code) or an
uncaught exception carrying its message. -/
structure MainOut where
  events : List Event
  lines : List String
  result : Except String Nat
deriving DecidableEq

/-- POSIX `os.path.join(base, name)` for a relative `name` and a base
directory not ending in a slash. -/
def pathJoin (base name : String) : String := base ++ "/" ++ name

/-- Substring test on character lists: the pattern occurs somewhere. -/
def subAux (pat : List Char) : List Char → Bool
  | [] => pat.isEmpty
  | c :: rest => List.isPrefixOf pat (c :: rest) || subAux pat rest

/-- Substring test on strings (Python's `in` operator on `str`). -/
def strContains (s pat : String) : Bool := subAux pat.data s.data

/-- Embedding of `check_file_exists(filepath, description)`: stats the
path; if it exists, also fetches its size and reports `[OK]`, otherwise
reports `[FAIL] ... MISSING!`.  Returns the events, the printed lines and
the boolean result. -/
def check_file_exists (fs : FS) (filepath description : String) :
    List Event × List String × Bool :=
  if fs.pathExists filepath then
    ([Event.statE filepath, Event.sizeE filepath],
     ["[OK] " ++ description ++ ": " ++ filepath ++ " (" ++
        toString (fs.pathSize filepath) ++ " bytes)"],
     true)
  else
    ([Event.statE filepath],
     ["[FAIL] " ++ description ++ ": " ++ filepath ++ " - MISSING!"],
     false)

/-- Embedding of `validate_json(filepath)`: opens and parses the file,
reporting validity; returns the events, the printed lines, the boolean
result and the parsed data (`None` on failure). -/
def validate_json (fs : FS) (filepath : String) :
    List Event × List String × (Bool × Option PyVal) :=
  match fs.readJson filepath with
  | JsonReadResult.ok data =>
      ([Event.openE filepath], ["[OK] Valid JSON: " ++ filepath], (true, some data))
  | JsonReadResult.decodeError e =>
      ([Event.openE filepath],
       ["[FAIL] Invalid JSON in " ++ filepath ++ ": " ++ e], (false, Option.none))
  | JsonReadResult.readError e =>
      ([Event.openE filepath],
       ["[FAIL] Error reading " ++ filepath ++ ": " ++ e], (false, Option.none))

/-- Embedding of one of `main`'s file-checking loops
(`for filename, desc in ...: all_valid = all_valid and check_file_exists(...)`).
Because Python's `and` short-circuits, `check_file_exists` is called only
while the accumulator is still `True`. -/
def checkFiles (fs : FS) (base : String) (files : List (String × String))
    (allValid : Bool) : List Event × List String × Bool :=
  match files with
  | [] => ([], [], allValid)
  | (filename, desc) :: rest =>
    if allValid then
      let r := check_file_exists fs (pathJoin base filename) desc
      let rr := checkFiles fs base rest r.2.2
      (r.1 ++ rr.1, r.2.1 ++ rr.2.1, rr.2.2)
    else
      checkFiles fs base rest false

/-- The `html_files` list from `main`. -/
def html_files : List (String × String) := [("sidepanel.html", "Side Panel")]

/-- The `css_files` list from `main`. -/
def css_files : List (String × String) :=
  [("styles/variables.css", "Design tokens"),
   ("styles/components.css", "UI components"),
   ("styles/animations.css", "Animations"),
   ("styles/sidepanel.css", "Side Panel styles")]

/-- The `js_files` list from `main`. -/
def js_files : List (String × String) :=
  [("scripts/sidepanel.js", "Side Panel logic"),
   ("scripts/modal-manager.js", "Modal manager"),
   ("scripts/tab-manager.js", "Tab manager"),
   ("scripts/storage-manager.js", "Storage manager"),
   ("scripts/background.js", "Background worker"),
   ("scripts/content-intent-capture.js", "Content script")]

/-- The `icon_files` list from `main`. -/
def icon_files : List (String × String) :=
  [("assets/icons/icon16.png", "16x16 icon"),
   ("assets/icons/icon48.png", "48x48 icon"),
   ("assets/icons/icon192.png", "128x128 icon")]

/-- All fourteen non-manifest checked files, in the order `main` checks
them. -/
def all14 : List (String × String) := html_files ++ css_files ++ js_files ++ icon_files

/-- The fifteen expected relative paths: the manifest plus the fourteen
checked files. -/
def expectedNames : List String := "manifest.json" :: all14.map Prod.fst

/-- The manifest path `os.path.join(base_dir, 'manifest.json')`. -/
def manifestPath (base : String) : String := pathJoin base "manifest.json"

/-- The `"=" * 60` separator line. -/
def sep60 : String := String.mk (List.replicate 60 '=')

/-- The four banner lines printed at the top of `main`. -/
def headerLines : List String :=
  [sep60, "TAB MEMORY ASSISTANT - VALIDATION CHECK", sep60, ""]

/-- The lines printed in the `all_valid` branch of the summary. -/
def successLines (base : String) : List String :=
  ["[SUCCESS] ALL CHECKS PASSED!",
   "",
   "Your extension is ready to load in Chrome!",
   "",
   "Next steps:",
   "1. Open chrome://extensions/ in Chrome",
   "2. Enable \x27Developer mode\x27",
   "3. Click \x27Load unpacked\x27",
   "4. Select this folder: " ++ base,
   sep60]

/-- The lines printed in the failing branch of the summary. -/
def failureLines : List String :=
  ["[ERROR] SOME CHECKS FAILED!",
   "",
   "Please fix the issues above before loading the extension.",
   sep60]

/-- Embedding of the `if valid and manifest_data:` block of `main`, which
prints the three manifest fields.  When the parsed value is truthy but has
no `get` attribute, the first `manifest_data.get('name')` raises an
`AttributeError` before anything from the block is printed. -/
def fieldBlock (valid : Bool) (manifest_data : Option PyVal) :
    Except String (List String) :=
  match manifest_data with
  | Option.none => Except.ok []
  | Option.some d =>
    if valid && pyTruthy d then
      match pyGet d "name" with
      | Except.error msg => Except.error msg
      | Except.ok n =>
        match pyGet d "version" with
        | Except.error msg => Except.error msg
        | Except.ok v =>
          match pyGet d "manifest_version" with
          | Except.error msg => Except.error msg
          | Except.ok m =>
            Except.ok
              ["   Name: " ++ pyStr n,
               "   Version: " ++ pyStr v,
               "   Manifest Version: " ++ pyStr m]
    else Except.ok []

/-- Embedding of `main()`: validates the manifest, prints its fields,
checks the four file groups with a short-circuiting accumulator, prints a
summary and returns `0` or `1` — or dies on an uncaught exception from
the field block. -/
def main (fs : FS) (base : String) : MainOut :=
  let mp := manifestPath base
  let vj := validate_json fs mp
  let valid := vj.2.2.1
  let all_valid := true && valid
  match fieldBlock valid vj.2.2.2 with
  | Except.error msg =>
      { events := vj.1,
        lines := headerLines ++ ["1. Checking manifest.json..."] ++ vj.2.1,
        result := Except.error msg }
  | Except.ok fl =>
      let s1 := checkFiles fs base html_files all_valid
      let s2 := checkFiles fs base css_files s1.2.2
      let s3 := checkFiles fs base js_files s2.2.2
      let s4 := checkFiles fs base icon_files s3.2.2
      { events := vj.1 ++ s1.1 ++ s2.1 ++ s3.1 ++ s4.1,
        lines := headerLines ++ ["1. Checking manifest.json..."] ++ vj.2.1 ++ fl ++ [""]
          ++ ["2. Checking HTML files..."] ++ s1.2.1 ++ [""]
          ++ ["3. Checking CSS files..."] ++ s2.2.1 ++ [""]
          ++ ["4. Checking JavaScript files..."] ++ s3.2.1 ++ [""]
          ++ ["5. Checking icon files..."] ++ s4.2.1 ++ [""]
          ++ [sep60]
          ++ (if s4.2.2 then successLines base else failureLines),
        result := Except.ok (if s4.2.2 then 0 else 1) }

/-- The whole process: `if __name__ == "__main__": sys.exit(main())`.
The command line is available to the process but `main` never consults
`sys.argv`, so the embedding takes it as an unused parameter. -/
def program (fs : FS) (base : String) (_argv : List String) : MainOut :=
  main fs base

/-- Accumulated validity just before the check of path `p`, as a value:
the manifest parsed and every checked file listed before `p` exists. -/
def priorValid (fs : FS) (base p : String) : Bool :=
  isOkB (fs.readJson (manifestPath base)) &&
    ((all14.takeWhile (fun fd => fd.1 != p)).all
      (fun fd => fs.pathExists (pathJoin base fd.1)))

/-- The `[OK]` report line `check_file_exists` prints for an existing
checked file. -/
def okLineF (fs : FS) (base : String) (fd : String × String) : String :=
  "[OK] " ++ fd.2 ++ ": " ++ pathJoin base fd.1 ++ " (" ++
    toString (fs.pathSize (pathJoin base fd.1)) ++ " bytes)"

/-- The `[FAIL] ... MISSING!` report line `check_file_exists` prints for
an absent checked file. -/
def missingLineF (base : String) (fd : String × String) : String :=
  "[FAIL] " ++ fd.2 ++ ": " ++ pathJoin base fd.1 ++ " - MISSING!"

/-- Stat and size events produced by checking a list of files that all
exist. -/
def statEvents (base : String) (l : List (String × String)) : List Event :=
  l.flatMap (fun fd => [Event.statE (pathJoin base fd.1), Event.sizeE (pathJoin base fd.1)])

/-- The five numbered section headers `main` prints. -/
def sectionHeaders : List String :=
  ["1. Checking manifest.json...",
   "2. Checking HTML files...",
   "3. Checking CSS files...",
   "4. Checking JavaScript files...",
   "5. Checking icon files..."]

/-- Appending strings concatenates their character data. -/
theorem str_data_append (s t : String) : (s ++ t).data = s.data ++ t.data :=
  String.data_append s t

/-- String append is left-cancellative. -/
theorem str_append_left_cancel {a b c : String} (h : a ++ b = a ++ c) : b = c := by
  have h2 := congrArg String.data h
  rw [String.data_append, String.data_append] at h2
  have h3 := List.append_cancel_left h2
  cases b; cases c
  exact congrArg String.mk h3

/-- Joining distinct relative names to the same base yields distinct
paths. -/
theorem pathJoin_inj {base p q : String} (h : pathJoin base p = pathJoin base q) :
    p = q := by
  simp only [pathJoin] at h
  exact str_append_left_cancel h

/-- Once the accumulator is `False`, a checking loop performs no
filesystem access and prints nothing. -/
theorem checkFiles_false (fs : FS) (base : String) :
    ∀ l : List (String × String), checkFiles fs base l false = ([], [], false)
  | [] => by simp [checkFiles]
  | fd :: rest => by
      obtain ⟨f, d⟩ := fd
      simp [checkFiles, checkFiles_false fs base rest]

/-- A checking loop over two concatenated lists runs the first list, then
the second with the accumulator the first produced. -/
theorem checkFiles_append (fs : FS) (base : String) :
    ∀ (A B : List (String × String)) (v : Bool),
      checkFiles fs base (A ++ B) v =
        ((checkFiles fs base A v).1 ++
            (checkFiles fs base B (checkFiles fs base A v).2.2).1,
         (checkFiles fs base A v).2.1 ++
            (checkFiles fs base B (checkFiles fs base A v).2.2).2.1,
         (checkFiles fs base B (checkFiles fs base A v).2.2).2.2)
  | [], B, v => by simp [checkFiles]
  | a :: A, B, v => by
      obtain ⟨f, d⟩ := a
      cases v with
      | false => simp [checkFiles, checkFiles_false, checkFiles_append fs base A B]
      | true => simp [checkFiles, checkFiles_append fs base A B, List.append_assoc]

/-- A checking loop over files that all exist reports `[OK]` for each and
keeps the accumulator `True`. -/
theorem checkFiles_all_ok (fs : FS) (base : String) :
    ∀ l : List (String × String),
      (∀ fd ∈ l, fs.pathExists (pathJoin base fd.1) = true) →
      checkFiles fs base l true = (statEvents base l, l.map (okLineF fs base), true)
  | [], _ => by simp [checkFiles, statEvents]
  | fd :: rest, h => by
      obtain ⟨f, d⟩ := fd
      have h1 := h (f, d) (List.mem_cons_self _ _)
      have ih := checkFiles_all_ok fs base rest (fun y hy => h y (List.mem_cons_of_mem _ hy))
      simp [checkFiles, check_file_exists, h1, ih, statEvents, okLineF]

/-- A checking loop whose first absent file is `x` reports `[OK]` for the
files before `x`, reports `x` as missing, and checks nothing afterwards. -/
theorem checkFiles_first_fail (fs : FS) (base : String) (x : String × String)
    (post : List (String × String))
    (hx : fs.pathExists (pathJoin base x.1) = false) :
    ∀ pre : List (String × String),
      (∀ y ∈ pre, fs.pathExists (pathJoin base y.1) = true) →
      checkFiles fs base (pre ++ x :: post) true =
        (statEvents base pre ++ [Event.statE (pathJoin base x.1)],
         pre.map (okLineF fs base) ++ [missingLineF base x],
         false)
  | [], _ => by
      obtain ⟨f, d⟩ := x
      simp [checkFiles, check_file_exists, hx, checkFiles_false, statEvents, missingLineF]
  | y :: pre, h => by
      obtain ⟨f, d⟩ := y
      have h1 := h (f, d) (List.mem_cons_self _ _)
      have ih := checkFiles_first_fail fs base x post hx pre
        (fun z hz => h z (List.mem_cons_of_mem _ hz))
      simp [checkFiles, check_file_exists, h1, ih, statEvents, okLineF]

/-- From a failed conjunction over a list of files, extract the first
absent file: everything before it exists. -/
theorem exists_first_fail (fs : FS) (base : String) :
    ∀ l : List (String × String),
      l.all (fun fd => fs.pathExists (pathJoin base fd.1)) = false →
      ∃ pre x post, l = pre ++ x :: post ∧
        (∀ y ∈ pre, fs.pathExists (pathJoin base y.1) = true) ∧
        fs.pathExists (pathJoin base x.1) = false
  | [], h => by simp at h
  | a :: rest, h => by
      by_cases ha : fs.pathExists (pathJoin base a.1) = true
      · have hrest : rest.all (fun fd => fs.pathExists (pathJoin base fd.1)) = false := by
          simpa [ha] using h
        obtain ⟨pre, x, post, heq, hpre, hx⟩ := exists_first_fail fs base rest hrest
        refine ⟨a :: pre, x, post, by rw [heq, List.cons_append], ?_, hx⟩
        intro y hy
        rcases List.mem_cons.1 hy with hy | hy
        · rw [hy]; exact ha
        · exact hpre y hy
      · exact ⟨[], a, rest, rfl, by simp, by simpa using ha⟩

/-- The field block on a parsed dict never raises: it prints the three
field lines when the dict is non-empty and nothing when it is empty. -/
theorem fieldBlock_dict (kvs : List (String × PyVal)) :
    fieldBlock true (some (PyVal.dict kvs)) =
      Except.ok (if kvs.isEmpty then ([] : List String) else
        ["   Name: " ++ pyStr ((List.lookup "name" kvs).getD PyVal.none),
         "   Version: " ++ pyStr ((List.lookup "version" kvs).getD PyVal.none),
         "   Manifest Version: " ++
           pyStr ((List.lookup "manifest_version" kvs).getD PyVal.none)]) := by
  cases kvs with
  | nil => simp [fieldBlock, pyTruthy]
  | cons a t => simp [fieldBlock, pyTruthy, pyGet]

/-- The field block on a truthy value that is not a dict raises the
`AttributeError` from `manifest_data.get('name')`. -/
theorem fieldBlock_crash (d : PyVal) (h1 : pyTruthy d = true)
    (h2 : ∀ kvs, d ≠ PyVal.dict kvs) :
    fieldBlock true (some d) = Except.error (attrGetMsg d) := by
  cases d with
  | dict kvs => exact absurd rfl (h2 kvs)
  | none => simp [pyTruthy] at h1
  | bool b => cases b with
    | false => simp [pyTruthy] at h1
    | true => simp [fieldBlock, pyTruthy, pyGet]
  | int n =>
      simp only [pyTruthy, bne_iff_ne, ne_eq, decide_eq_true_eq] at h1
      simp [fieldBlock, pyTruthy, h1, pyGet]
  | str s =>
      simp only [pyTruthy, bne_iff_ne, ne_eq, decide_eq_true_eq] at h1
      simp [fieldBlock, pyTruthy, h1, pyGet]
  | list xs =>
      simp only [pyTruthy, Bool.not_eq_true', List.isEmpty_eq_false] at h1
      simp [fieldBlock, pyTruthy, h1, pyGet]

/-- When the manifest parses and the field block does not raise, `main`
reaches the file checks; its output is determined by the combined check
of the fourteen files, whose report lines appear in the output split
across the four sections. -/
theorem main_ok_branch (fs : FS) (base : String) (d : PyVal) (fl : List String)
    (hm : fs.readJson (manifestPath base) = JsonReadResult.ok d)
    (hfb : fieldBlock true (some d) = Except.ok fl) :
    ∃ L1 L2 L3 L4 : List String,
      (checkFiles fs base all14 true).2.1 = L1 ++ L2 ++ L3 ++ L4 ∧
      main fs base =
        { events := Event.openE (manifestPath base) :: (checkFiles fs base all14 true).1,
          lines := headerLines ++ ["1. Checking manifest.json...",
              "[OK] Valid JSON: " ++ manifestPath base] ++ fl ++ [""]
            ++ ["2. Checking HTML files..."] ++ L1 ++ [""]
            ++ ["3. Checking CSS files..."] ++ L2 ++ [""]
            ++ ["4. Checking JavaScript files..."] ++ L3 ++ [""]
            ++ ["5. Checking icon files..."] ++ L4 ++ [""]
            ++ [sep60]
            ++ (if (checkFiles fs base all14 true).2.2 then successLines base
                else failureLines),
          result := Except.ok (if (checkFiles fs base all14 true).2.2 then 0 else 1) } := by
  refine ⟨(checkFiles fs base html_files true).2.1,
    (checkFiles fs base css_files (checkFiles fs base html_files true).2.2).2.1,
    (checkFiles fs base js_files
      (checkFiles fs base css_files (checkFiles fs base html_files true).2.2).2.2).2.1,
    (checkFiles fs base icon_files
      (checkFiles fs base js_files
        (checkFiles fs base css_files
          (checkFiles fs base html_files true).2.2).2.2).2.2).2.1, ?_, ?_⟩
  · simp [all14, checkFiles_append]
  · simp [main, validate_json, hm, hfb, all14, checkFiles_append]

/-- Variant of `main_ok_branch` with the combined check's events, lines
and accumulator abstracted into parameters, so that downstream proofs
never manipulate the `checkFiles` term itself. -/
theorem main_ok_branch2 (fs : FS) (base : String) (d : PyVal) (fl : List String)
    (E : List Event) (CL : List String) (c : Bool)
    (hm : fs.readJson (manifestPath base) = JsonReadResult.ok d)
    (hfb : fieldBlock true (some d) = Except.ok fl)
    (hE : (checkFiles fs base all14 true).1 = E)
    (hCL : (checkFiles fs base all14 true).2.1 = CL)
    (hc : (checkFiles fs base all14 true).2.2 = c) :
    ∃ L1 L2 L3 L4 : List String,
      CL = L1 ++ L2 ++ L3 ++ L4 ∧
      main fs base =
        { events := Event.openE (manifestPath base) :: E,
          lines := headerLines ++ ["1. Checking manifest.json...",
              "[OK] Valid JSON: " ++ manifestPath base] ++ fl ++ [""]
            ++ ["2. Checking HTML files..."] ++ L1 ++ [""]
            ++ ["3. Checking CSS files..."] ++ L2 ++ [""]
            ++ ["4. Checking JavaScript files..."] ++ L3 ++ [""]
            ++ ["5. Checking icon files..."] ++ L4 ++ [""]
            ++ [sep60]
            ++ (if c then successLines base else failureLines),
          result := Except.ok (if c then 0 else 1) } := by
  obtain ⟨L1, L2, L3, L4, hL, hmain⟩ := main_ok_branch fs base d fl hm hfb
  rw [hCL] at hL
  rw [hE, hc] at hmain
  exact ⟨L1, L2, L3, L4, hL, hmain⟩

/-- If the manifest contains malformed JSON, `main` prints the
`Invalid JSON in` line, skips every file check, and returns `1`. -/
theorem main_invalid_json (fs : FS) (base e : String)
    (hm : fs.readJson (manifestPath base) = JsonReadResult.decodeError e) :
    main fs base =
      { events := [Event.openE (manifestPath base)],
        lines := headerLines ++ ["1. Checking manifest.json...",
            "[FAIL] Invalid JSON in " ++ manifestPath base ++ ": " ++ e,
            "", "2. Checking HTML files...", "",
            "3. Checking CSS files...", "", "4. Checking JavaScript files...", "",
            "5. Checking icon files...", "", sep60] ++ failureLines,
        result := Except.ok 1 } := by
  simp [main, validate_json, hm, fieldBlock, checkFiles_false]

/-- If the manifest is missing or unreadable, `main` prints the
`Error reading` line, skips every file check, and returns `1`. -/
theorem main_read_err (fs : FS) (base e : String)
    (hm : fs.readJson (manifestPath base) = JsonReadResult.readError e) :
    main fs base =
      { events := [Event.openE (manifestPath base)],
        lines := headerLines ++ ["1. Checking manifest.json...",
            "[FAIL] Error reading " ++ manifestPath base ++ ": " ++ e,
            "", "2. Checking HTML files...", "",
            "3. Checking CSS files...", "", "4. Checking JavaScript files...", "",
            "5. Checking icon files...", "", sep60] ++ failureLines,
        result := Except.ok 1 } := by
  simp [main, validate_json, hm, fieldBlock, checkFiles_false]

/-- If the manifest parses to a truthy value with no `get` attribute,
`main` dies on the `AttributeError` right after the `Valid JSON` line. -/
theorem main_crash (fs : FS) (base : String) (d : PyVal)
    (hm : fs.readJson (manifestPath base) = JsonReadResult.ok d)
    (h1 : pyTruthy d = true) (h2 : ∀ kvs, d ≠ PyVal.dict kvs) :
    main fs base =
      { events := [Event.openE (manifestPath base)],
        lines := headerLines ++ ["1. Checking manifest.json...",
            "[OK] Valid JSON: " ++ manifestPath base],
        result := Except.error (attrGetMsg d) } := by
  simp [main, validate_json, hm, fieldBlock_crash d h1 h2]

/-- If the manifest parses but the field block raises, `main` dies with
that exception right after the `Valid JSON` line. -/
theorem main_field_err (fs : FS) (base : String) (d : PyVal) (msg : String)
    (hm : fs.readJson (manifestPath base) = JsonReadResult.ok d)
    (hfb : fieldBlock true (some d) = Except.error msg) :
    main fs base =
      { events := [Event.openE (manifestPath base)],
        lines := headerLines ++ ["1. Checking manifest.json...",
            "[OK] Valid JSON: " ++ manifestPath base],
        result := Except.error msg } := by
  simp [main, validate_json, hm, hfb]

/-- Every event of a checking loop is a stat or a size probe of one of the
files in its list. -/
theorem checkFiles_events_sub (fs : FS) (base : String) :
    ∀ (l : List (String × String)) (v : Bool), ∀ ev ∈ (checkFiles fs base l v).1,
      ∃ fd ∈ l, ev = Event.statE (pathJoin base fd.1) ∨ ev = Event.sizeE (pathJoin base fd.1)
  | [], v => by simp [checkFiles]
  | fd :: rest, v => by
      obtain ⟨f, d⟩ := fd
      intro ev hev
      cases v with
      | false =>
          rw [checkFiles_false] at hev
          simp at hev
      | true =>
          by_cases hf : fs.pathExists (pathJoin base f) = true
          · simp only [checkFiles, check_file_exists, hf, if_true] at hev
            rcases List.mem_append.1 hev with h | h
            · simp at h
              rcases h with rfl | rfl
              · exact ⟨(f, d), List.mem_cons_self _ _, Or.inl rfl⟩
              · exact ⟨(f, d), List.mem_cons_self _ _, Or.inr rfl⟩
            · obtain ⟨fd, hfd, hor⟩ := checkFiles_events_sub fs base rest _ ev h
              exact ⟨fd, List.mem_cons_of_mem _ hfd, hor⟩
          · have hf2 : fs.pathExists (pathJoin base f) = false := by
              simpa using hf
            simp only [checkFiles, check_file_exists, hf2] at hev
            rcases List.mem_append.1 hev with h | h
            · simp at h
              exact ⟨(f, d), List.mem_cons_self _ _, Or.inl h⟩
            · obtain ⟨fd, hfd, hor⟩ := checkFiles_events_sub fs base rest _ ev h
              exact ⟨fd, List.mem_cons_of_mem _ hfd, hor⟩

/-- Two strings differ if they disagree at a character position that falls
inside both concrete prefixes, whatever the appended tails are. -/
theorem str_ne_of_char_at (i : Nat) (A t B u : String)
    (h1 : i < A.data.length) (h2 : i < B.data.length)
    (h3 : A.data[i]? ≠ B.data[i]?) : A ++ t ≠ B ++ u := by
  intro h
  have h4 := congrArg (fun s => s.data[i]?) h
  simp only [str_data_append] at h4
  rw [List.getElem?_append_left h1, List.getElem?_append_left h2] at h4
  exact h3 h4

/-- A string with a concrete prefix differs from a concrete string if they
disagree at a position inside the prefix. -/
theorem str_ne_of_char_at1 (i : Nat) (A t B : String)
    (h1 : i < A.data.length) (h2 : A.data[i]? ≠ B.data[i]?) : A ++ t ≠ B := by
  intro h
  have h4 := congrArg (fun s => s.data[i]?) h
  simp only [str_data_append] at h4
  rw [List.getElem?_append_left h1] at h4
  exact h2 h4

/-- Appending strings adds their data lengths. -/
theorem str_data_length_append (s t : String) :
    (s ++ t).data.length = s.data.length + t.data.length := by
  rw [str_data_append, List.length_append]

/-- A character position inside the left operand of an append reads from
the left operand. -/
theorem str_getElem_append (s t : String) (i : Nat) (h : i < s.data.length) :
    (s ++ t).data[i]? = s.data[i]? := by
  rw [str_data_append]
  exact List.getElem?_append_left h

/-- Two strings that disagree at some character position are distinct. -/
theorem ne_of_getElem_data {s t : String} (i : Nat)
    (h : s.data[i]? ≠ t.data[i]?) : s ≠ t :=
  fun he => h (by rw [he])

/-- A character position inside `A` reads from `A` through three appends. -/
theorem app3_data (A t u v : String) (i : Nat) (h : i < A.data.length) :
    (((A ++ t) ++ u) ++ v).data[i]? = A.data[i]? := by
  have h2 : i < (A ++ t).data.length := by
    rw [str_data_length_append]; omega
  have h3 : i < ((A ++ t) ++ u).data.length := by
    rw [str_data_length_append]; omega
  rw [str_getElem_append _ _ _ h3, str_getElem_append _ _ _ h2, str_getElem_append _ _ _ h]

/-- A character position inside a missing-report line's concrete-and-
description prefix reads from that prefix, whatever the base path is. -/
theorem missingLineF_data_head (base : String) (fd : String × String) (i : Nat)
    (h : i < ("[FAIL] " ++ fd.2 ++ ": ").data.length) :
    (missingLineF base fd).data[i]? = ("[FAIL] " ++ fd.2 ++ ": ").data[i]? := by
  show ((("[FAIL] " ++ fd.2 ++ ": ") ++ pathJoin base fd.1) ++ " - MISSING!").data[i]? = _
  have h1 : i < (("[FAIL] " ++ fd.2 ++ ": ") ++ pathJoin base fd.1).data.length := by
    rw [str_data_length_append]; omega
  rw [str_getElem_append _ _ _ h1, str_getElem_append _ _ _ h]

/-- A character position inside `[FAIL] ` reads from that literal in any
missing-report line. -/
theorem missingLineF_data_atom (base : String) (fd : String × String) (i : Nat)
    (h : i < 7) :
    (missingLineF base fd).data[i]? = "[FAIL] ".data[i]? := by
  have h0 : ("[FAIL] ").data.length = 7 := rfl
  have h1 : i < ("[FAIL] ").data.length := by rw [h0]; exact h
  have h2 : i < ("[FAIL] " ++ fd.2).data.length := by
    rw [str_data_length_append, h0]; omega
  have h3 : i < ("[FAIL] " ++ fd.2 ++ ": ").data.length := by
    rw [str_data_length_append, str_data_length_append, h0]; omega
  rw [missingLineF_data_head base fd i h3, str_getElem_append _ _ _ h2,
    str_getElem_append _ _ _ h1]

/-- A character position inside an ok-report line's concrete-and-
description prefix reads from that prefix, whatever the base path and the
size are. -/
theorem okLineF_data_head (fs : FS) (base : String) (fd : String × String) (i : Nat)
    (h : i < ("[OK] " ++ fd.2 ++ ": ").data.length) :
    (okLineF fs base fd).data[i]? = ("[OK] " ++ fd.2 ++ ": ").data[i]? := by
  show ((((("[OK] " ++ fd.2 ++ ": ") ++ pathJoin base fd.1) ++ " (")
      ++ toString (fs.pathSize (pathJoin base fd.1))) ++ " bytes)").data[i]? = _
  have h1 : i < (("[OK] " ++ fd.2 ++ ": ") ++ pathJoin base fd.1).data.length := by
    rw [str_data_length_append]; omega
  have h2 : i < ((("[OK] " ++ fd.2 ++ ": ") ++ pathJoin base fd.1) ++ " (").data.length := by
    rw [str_data_length_append]; omega
  have h3 : i < (((("[OK] " ++ fd.2 ++ ": ") ++ pathJoin base fd.1) ++ " (")
      ++ toString (fs.pathSize (pathJoin base fd.1))).data.length := by
    rw [str_data_length_append]; omega
  rw [str_getElem_append _ _ _ h3, str_getElem_append _ _ _ h2,
    str_getElem_append _ _ _ h1, str_getElem_append _ _ _ h]

/-- A character position inside `[OK] ` reads from that literal in any
ok-report line. -/
theorem okLineF_data_atom (fs : FS) (base : String) (fd : String × String) (i : Nat)
    (h : i < 5) :
    (okLineF fs base fd).data[i]? = "[OK] ".data[i]? := by
  have h0 : ("[OK] ").data.length = 5 := rfl
  have h1 : i < ("[OK] ").data.length := by rw [h0]; exact h
  have h2 : i < ("[OK] " ++ fd.2).data.length := by
    rw [str_data_length_append, h0]; omega
  have h3 : i < ("[OK] " ++ fd.2 ++ ": ").data.length := by
    rw [str_data_length_append, str_data_length_append, h0]; omega
  rw [okLineF_data_head fs base fd i h3, str_getElem_append _ _ _ h2,
    str_getElem_append _ _ _ h1]

/-- A missing-report line never equals an ok-report line: they disagree at
character 1 (`F` against `O`). -/
theorem missing_ne_okline (base : String) (fd1 : String × String) (fs : FS)
    (fd2 : String × String) : missingLineF base fd1 ≠ okLineF fs base fd2 := by
  apply ne_of_getElem_data 1
  rw [missingLineF_data_atom base fd1 1 (by omega), okLineF_data_atom fs base fd2 1 (by omega)]
  decide

/-- Two missing-report lines whose concrete prefixes disagree somewhere
are distinct, whatever the base path is. -/
theorem missing_ne_missing_of (base : String) (fd1 fd2 : String × String)
    (h : ∃ i ∈ List.range 64, i < ("[FAIL] " ++ fd1.2 ++ ": ").data.length ∧
      i < ("[FAIL] " ++ fd2.2 ++ ": ").data.length ∧
      ("[FAIL] " ++ fd1.2 ++ ": ").data[i]? ≠ ("[FAIL] " ++ fd2.2 ++ ": ").data[i]?) :
    missingLineF base fd1 ≠ missingLineF base fd2 := by
  obtain ⟨i, _, h1, h2, h3⟩ := h
  apply ne_of_getElem_data i
  rw [missingLineF_data_head base fd1 i h1, missingLineF_data_head base fd2 i h2]
  exact h3

/-- Two ok-report lines whose concrete prefixes disagree somewhere are
distinct, whatever the base path and the sizes are. -/
theorem ok_ne_ok_of (fs1 fs2 : FS) (base : String) (fd1 fd2 : String × String)
    (h : ∃ i ∈ List.range 64, i < ("[OK] " ++ fd1.2 ++ ": ").data.length ∧
      i < ("[OK] " ++ fd2.2 ++ ": ").data.length ∧
      ("[OK] " ++ fd1.2 ++ ": ").data[i]? ≠ ("[OK] " ++ fd2.2 ++ ": ").data[i]?) :
    okLineF fs1 base fd1 ≠ okLineF fs2 base fd2 := by
  obtain ⟨i, _, h1, h2, h3⟩ := h
  apply ne_of_getElem_data i
  rw [okLineF_data_head fs1 base fd1 i h1, okLineF_data_head fs2 base fd2 i h2]
  exact h3

/-- A missing-report line differs from a given string that disagrees with
`[FAIL] ` at some position of that literal. -/
theorem missing_ne_const_of (base : String) (fd : String × String) (c : String)
    (h : ∃ i ∈ List.range 8, i < 7 ∧ "[FAIL] ".data[i]? ≠ c.data[i]?) :
    missingLineF base fd ≠ c := by
  obtain ⟨i, _, h1, h2⟩ := h
  apply ne_of_getElem_data i
  rw [missingLineF_data_atom base fd i h1]
  exact h2

/-- An ok-report line differs from a given string that disagrees with
`[OK] ` at some position of that literal. -/
theorem ok_ne_const_of (fs : FS) (base : String) (fd : String × String) (c : String)
    (h : ∃ i ∈ List.range 6, i < 5 ∧ "[OK] ".data[i]? ≠ c.data[i]?) :
    okLineF fs base fd ≠ c := by
  obtain ⟨i, _, h1, h2⟩ := h
  apply ne_of_getElem_data i
  rw [okLineF_data_atom fs base fd i h1]
  exact h2

/-- A missing-report line differs from `A ++ t` when `A` disagrees with
`[FAIL] ` at some position inside both. -/
theorem missing_ne_app1_of (base : String) (fd : String × String) (A t : String)
    (h : ∃ i ∈ List.range 8, i < 7 ∧ i < A.data.length ∧
      "[FAIL] ".data[i]? ≠ A.data[i]?) :
    missingLineF base fd ≠ A ++ t := by
  obtain ⟨i, _, h1, h2, h3⟩ := h
  apply ne_of_getElem_data i
  rw [missingLineF_data_atom base fd i h1, str_getElem_append _ _ _ h2]
  exact h3

/-- An ok-report line differs from `A ++ t` when `A` disagrees with
`[OK] ` at some position inside both. -/
theorem ok_ne_app1_of (fs : FS) (base : String) (fd : String × String) (A t : String)
    (h : ∃ i ∈ List.range 6, i < 5 ∧ i < A.data.length ∧
      "[OK] ".data[i]? ≠ A.data[i]?) :
    okLineF fs base fd ≠ A ++ t := by
  obtain ⟨i, _, h1, h2, h3⟩ := h
  apply ne_of_getElem_data i
  rw [okLineF_data_atom fs base fd i h1, str_getElem_append _ _ _ h2]
  exact h3

/-- An ok-report line differs from `A ++ t` when `A` disagrees with the
line's concrete prefix at some position inside both. -/
theorem ok_ne_app1d_of (fs : FS) (base : String) (fd : String × String) (A t : String)
    (h : ∃ i ∈ List.range 64, i < ("[OK] " ++ fd.2 ++ ": ").data.length ∧
      i < A.data.length ∧ ("[OK] " ++ fd.2 ++ ": ").data[i]? ≠ A.data[i]?) :
    okLineF fs base fd ≠ A ++ t := by
  obtain ⟨i, _, h1, h2, h3⟩ := h
  apply ne_of_getElem_data i
  rw [okLineF_data_head fs base fd i h1, str_getElem_append _ _ _ h2]
  exact h3

/-- A missing-report line differs from `((A ++ t) ++ u) ++ v` when `A`
disagrees with the line's concrete prefix at some position inside both. -/
theorem missing_ne_app3_of (base : String) (fd : String × String) (A t u v : String)
    (h : ∃ i ∈ List.range 64, i < ("[FAIL] " ++ fd.2 ++ ": ").data.length ∧
      i < A.data.length ∧ ("[FAIL] " ++ fd.2 ++ ": ").data[i]? ≠ A.data[i]?) :
    missingLineF base fd ≠ ((A ++ t) ++ u) ++ v := by
  obtain ⟨i, _, h1, h2, h3⟩ := h
  apply ne_of_getElem_data i
  rw [missingLineF_data_head base fd i h1, app3_data _ _ _ _ _ h2]
  exact h3

/-- An ok-report line differs from `((A ++ t) ++ u) ++ v` when `A`
disagrees with `[OK] ` at some position inside both. -/
theorem ok_ne_app3_of (fs : FS) (base : String) (fd : String × String) (A t u v : String)
    (h : ∃ i ∈ List.range 6, i < 5 ∧ i < A.data.length ∧
      "[OK] ".data[i]? ≠ A.data[i]?) :
    okLineF fs base fd ≠ ((A ++ t) ++ u) ++ v := by
  obtain ⟨i, _, h1, h2, h3⟩ := h
  apply ne_of_getElem_data i
  rw [okLineF_data_atom fs base fd i h1, app3_data _ _ _ _ _ h2]
  exact h3

/-- Missing-report lines of two checked files with different paths are
different strings: their concrete description prefixes already differ. -/
theorem missing_pairwise : ∀ y ∈ all14, ∀ z ∈ all14, y.1 ≠ z.1 → ∀ base : String,
    missingLineF base y ≠ missingLineF base z := by
  intro y hy z hz hne base
  simp only [all14, html_files, css_files, js_files, icon_files, List.mem_append,
    List.mem_cons, List.not_mem_nil, or_false] at hy hz
  rcases hy with ((rfl | rfl | rfl | rfl | rfl) | rfl | rfl | rfl | rfl | rfl | rfl) | rfl | rfl | rfl <;>
    rcases hz with ((rfl | rfl | rfl | rfl | rfl) | rfl | rfl | rfl | rfl | rfl | rfl) | rfl | rfl | rfl <;>
      first
        | exact absurd rfl hne
        | exact missing_ne_missing_of _ _ _ (by decide)

/-- Ok-report lines of two checked files with different paths are
different strings, whatever their reported sizes are. -/
theorem ok_pairwise : ∀ y ∈ all14, ∀ z ∈ all14, y.1 ≠ z.1 →
    ∀ (fs1 fs2 : FS) (base : String), okLineF fs1 base y ≠ okLineF fs2 base z := by
  intro y hy z hz hne fs1 fs2 base
  simp only [all14, html_files, css_files, js_files, icon_files, List.mem_append,
    List.mem_cons, List.not_mem_nil, or_false] at hy hz
  rcases hy with ((rfl | rfl | rfl | rfl | rfl) | rfl | rfl | rfl | rfl | rfl | rfl) | rfl | rfl | rfl <;>
    rcases hz with ((rfl | rfl | rfl | rfl | rfl) | rfl | rfl | rfl | rfl | rfl | rfl) | rfl | rfl | rfl <;>
      first
        | exact absurd rfl hne
        | exact ok_ne_ok_of _ _ _ _ _ (by decide)

/-- No checked file's ok-report line equals the manifest's `Valid JSON`
line: their description regions differ. -/
theorem ok_ne_jsonline : ∀ y ∈ all14, ∀ (fs : FS) (base : String),
    okLineF fs base y ≠ "[OK] Valid JSON: " ++ manifestPath base := by
  intro y hy fs base
  simp only [all14, html_files, css_files, js_files, icon_files, List.mem_append,
    List.mem_cons, List.not_mem_nil, or_false] at hy
  rcases hy with ((rfl | rfl | rfl | rfl | rfl) | rfl | rfl | rfl | rfl | rfl | rfl) | rfl | rfl | rfl <;>
    exact ok_ne_app1d_of _ _ _ _ _ (by decide)

/-- No checked file's missing-report line equals the manifest's
`Invalid JSON in` line: their description regions differ. -/
theorem missing_ne_invalid : ∀ y ∈ all14, ∀ (base e : String),
    missingLineF base y ≠ "[FAIL] Invalid JSON in " ++ manifestPath base ++ ": " ++ e := by
  intro y hy base e
  simp only [all14, html_files, css_files, js_files, icon_files, List.mem_append,
    List.mem_cons, List.not_mem_nil, or_false] at hy
  rcases hy with ((rfl | rfl | rfl | rfl | rfl) | rfl | rfl | rfl | rfl | rfl | rfl) | rfl | rfl | rfl <;>
    exact missing_ne_app3_of _ _ _ _ _ _ (by decide)

/-- No checked file's missing-report line equals the manifest's
`Error reading` line: their description regions differ. -/
theorem missing_ne_readerr : ∀ y ∈ all14, ∀ (base e : String),
    missingLineF base y ≠ "[FAIL] Error reading " ++ manifestPath base ++ ": " ++ e := by
  intro y hy base e
  simp only [all14, html_files, css_files, js_files, icon_files, List.mem_append,
    List.mem_cons, List.not_mem_nil, or_false] at hy
  rcases hy with ((rfl | rfl | rfl | rfl | rfl) | rfl | rfl | rfl | rfl | rfl | rfl) | rfl | rfl | rfl <;>
    exact missing_ne_app3_of _ _ _ _ _ _ (by decide)

/-- A successful field block prints either nothing or exactly the three
field lines, each starting with its fixed label. -/
theorem fieldBlock_shape (d : PyVal) (fl : List String)
    (h : fieldBlock true (some d) = Except.ok fl) :
    fl = [] ∨ ∃ a b c, fl =
      ["   Name: " ++ a, "   Version: " ++ b, "   Manifest Version: " ++ c] := by
  cases d with
  | dict kvs =>
      rw [fieldBlock_dict kvs] at h
      cases hkv : kvs.isEmpty with
      | true =>
          rw [hkv] at h
          simp only [if_true] at h
          exact Or.inl (Except.ok.inj h).symm
      | false =>
          rw [hkv] at h
          simp only [Bool.false_eq_true, if_false] at h
          exact Or.inr ⟨_, _, _, (Except.ok.inj h).symm⟩
  | none =>
      simp only [fieldBlock, pyTruthy, Bool.and_false, Bool.false_eq_true, if_false] at h
      exact Or.inl (Except.ok.inj h).symm
  | bool b =>
      cases b with
      | false =>
          simp only [fieldBlock, pyTruthy, Bool.and_false, Bool.false_eq_true, if_false] at h
          exact Or.inl (Except.ok.inj h).symm
      | true => simp [fieldBlock, pyTruthy, pyGet] at h
  | int n =>
      by_cases hn : n = 0
      · simp only [fieldBlock, pyTruthy, hn] at h
        simp at h
        exact Or.inl h
      · simp [fieldBlock, pyTruthy, hn, pyGet] at h
  | str s =>
      by_cases hs : s = ""
      · simp only [fieldBlock, pyTruthy, hs] at h
        simp at h
        exact Or.inl h
      · simp [fieldBlock, pyTruthy, hs, pyGet] at h
  | list xs =>
      cases xs with
      | nil =>
          simp only [fieldBlock, pyTruthy] at h
          simp at h
          exact Or.inl h
      | cons a t => simp [fieldBlock, pyTruthy, pyGet] at h

/-- Every printed line of a run whose manifest parsed and whose field
block succeeded is a banner line, a section header, the `Valid JSON`
line, a field line, a file-report line from the combined check, or a
summary line. -/
theorem mainlines_split (fs : FS) (base : String) (d : PyVal) (fl CL : List String)
    (c : Bool) (hm : fs.readJson (manifestPath base) = JsonReadResult.ok d)
    (hfb : fieldBlock true (some d) = Except.ok fl)
    (hCL : (checkFiles fs base all14 true).2.1 = CL)
    (hc : (checkFiles fs base all14 true).2.2 = c) :
    ∀ s ∈ (main fs base).lines,
      s = sep60 ∨ s = "TAB MEMORY ASSISTANT - VALIDATION CHECK" ∨ s = "" ∨
      s ∈ sectionHeaders ∨ s = "[OK] Valid JSON: " ++ manifestPath base ∨
      s ∈ fl ∨ s ∈ CL ∨ s ∈ successLines base ∨ s ∈ failureLines := by
  obtain ⟨E, hE⟩ : ∃ E, (checkFiles fs base all14 true).1 = E := ⟨_, rfl⟩
  obtain ⟨L1, L2, L3, L4, hL, hmain⟩ :=
    main_ok_branch2 fs base d fl E CL c hm hfb hE hCL hc
  rw [hmain]
  intro s hs
  have m1 : s ∈ L1 → s ∈ CL := fun h => by
    rw [hL]
    exact List.mem_append_left _ (List.mem_append_left _ (List.mem_append_left _ h))
  have m2 : s ∈ L2 → s ∈ CL := fun h => by
    rw [hL]
    exact List.mem_append_left _ (List.mem_append_left _ (List.mem_append_right _ h))
  have m3 : s ∈ L3 → s ∈ CL := fun h => by
    rw [hL]
    exact List.mem_append_left _ (List.mem_append_right _ h)
  have m4 : s ∈ L4 → s ∈ CL := fun h => by
    rw [hL]
    exact List.mem_append_right _ h
  clear hE hCL hc hmain hL hm hfb
  cases c with
  | true =>
      simp only [headerLines, sectionHeaders, if_true, List.mem_append, List.mem_cons,
        List.not_mem_nil, or_false] at hs ⊢
      rcases hs with (((((((((((((((((h | h | h | h) | h | h) | h) | h) | h) | h) | h) | h) | h) | h) | h) | h) | h) | h) | h) | h) | h) | h <;>
        first
        | exact absurd h (List.not_mem_nil _)
        | simp [h]
        | simp [m1 h]
        | simp [m2 h]
        | simp [m3 h]
        | simp [m4 h]
  | false =>
      simp only [headerLines, sectionHeaders, Bool.false_eq_true, if_false, List.mem_append,
        List.mem_cons, List.not_mem_nil, or_false] at hs ⊢
      rcases hs with (((((((((((((((((h | h | h | h) | h | h) | h) | h) | h) | h) | h) | h) | h) | h) | h) | h) | h) | h) | h) | h) | h) | h <;>
        first
        | exact absurd h (List.not_mem_nil _)
        | simp [h]
        | simp [m1 h]
        | simp [m2 h]
        | simp [m3 h]
        | simp [m4 h]

/-- A filesystem in which every path exists (with size 5) and every JSON
read yields `m`. -/
def fsAll (m : JsonReadResult) : FS :=
  { pathExists := fun _ => true, pathSize := fun _ => 5, readJson := fun _ => m }

/-- A filesystem in which exactly the path `p` is absent (all sizes 3) and
every JSON read yields `m`. -/
def fsDrop (p : String) (m : JsonReadResult) : FS :=
  { pathExists := fun q => q != p, pathSize := fun _ => 3, readJson := fun _ => m }

/-- C8: the program's behaviour does not depend on the command line: two
invocations on the same filesystem state with different `argv` produce the
same events, the same standard output and the same exit status.  `main`
never reads `sys.argv`, so the embedded `program` ignores its `argv`
parameter. -/
theorem C8_argv_independent (fs : FS) (base : String) (argv1 argv2 : List String) :
    program fs base argv1 = program fs base argv2 := rfl

/-- C3: whenever `manifest.json` exists but holds malformed JSON, `main`
returns exit code 1 and prints the `Invalid JSON` line for the manifest. -/
theorem C3_invalid_manifest_fails (fs : FS) (base e : String)
    (_hex : fs.pathExists (manifestPath base) = true)
    (hm : fs.readJson (manifestPath base) = JsonReadResult.decodeError e) :
    (main fs base).result = Except.ok 1 ∧
    "[FAIL] Invalid JSON in " ++ manifestPath base ++ ": " ++ e ∈ (main fs base).lines := by
  rw [main_invalid_json fs base e hm]
  exact ⟨rfl, by simp [headerLines]⟩

/-- Witness for C3 at a concrete filesystem whose manifest is malformed. -/
theorem C3_witness :
    (main (fsAll (JsonReadResult.decodeError "Expecting value: line 1 column 1 (char 0)")) "b").result
        = Except.ok 1 ∧
    "[FAIL] Invalid JSON in " ++ manifestPath "b" ++ ": " ++
        "Expecting value: line 1 column 1 (char 0)"
      ∈ (main (fsAll (JsonReadResult.decodeError "Expecting value: line 1 column 1 (char 0)")) "b").lines :=
  C3_invalid_manifest_fails (fsAll (JsonReadResult.decodeError "Expecting value: line 1 column 1 (char 0)"))
    "b" "Expecting value: line 1 column 1 (char 0)" (by decide) rfl

/-- C9: when the manifest is valid JSON whose top-level value is truthy
but not an object, `main` raises an uncaught `AttributeError` at
`manifest_data.get` and terminates without printing either summary line
or returning an exit code. -/
theorem C9_truthy_nonobject_crashes (fs : FS) (base : String) (d : PyVal)
    (hm : fs.readJson (manifestPath base) = JsonReadResult.ok d)
    (h1 : pyTruthy d = true) (h2 : ∀ kvs, d ≠ PyVal.dict kvs) :
    (main fs base).result = Except.error (attrGetMsg d) ∧
    strContains (attrGetMsg d) "AttributeError" = true ∧
    ∀ l ∈ (main fs base).lines,
      l ≠ "[SUCCESS] ALL CHECKS PASSED!" ∧ l ≠ "[ERROR] SOME CHECKS FAILED!" := by
  rw [main_crash fs base d hm h1 h2]
  refine ⟨rfl, ?_, ?_⟩
  · cases d with
    | dict kvs => exact absurd rfl (h2 kvs)
    | none => simp [pyTruthy] at h1
    | bool b =>
        cases b with
        | false => simp [pyTruthy] at h1
        | true => rfl
    | int n => rfl
    | str s => rfl
    | list xs => rfl
  · intro l hl
    simp only [headerLines, List.cons_append, List.nil_append, List.mem_cons,
      List.not_mem_nil, or_false] at hl
    rcases hl with rfl | rfl | rfl | rfl | rfl | rfl <;>
      refine ⟨?_, ?_⟩ <;>
        first
          | decide
          | exact str_ne_of_char_at1 1 _ _ _ (by decide) (by decide)

/-- Witness for C9 at a concrete filesystem whose manifest parses to the
integer `7`. -/
theorem C9_witness :
    (main (fsAll (JsonReadResult.ok (PyVal.int 7))) "b").result
        = Except.error (attrGetMsg (PyVal.int 7)) ∧
    strContains (attrGetMsg (PyVal.int 7)) "AttributeError" = true ∧
    ∀ l ∈ (main (fsAll (JsonReadResult.ok (PyVal.int 7))) "b").lines,
      l ≠ "[SUCCESS] ALL CHECKS PASSED!" ∧ l ≠ "[ERROR] SOME CHECKS FAILED!" :=
  C9_truthy_nonobject_crashes (fsAll (JsonReadResult.ok (PyVal.int 7))) "b" (PyVal.int 7)
    rfl (by decide) (fun kvs h => by cases h)

/-- Counterexample to C1 as stated: a filesystem in which every expected
path is present and the manifest is syntactically valid JSON (the array
`[1]`), yet `main` does not return 0 and never prints
`ALL CHECKS PASSED` — it dies on an `AttributeError` instead. -/
theorem C1_counterexample :
    (∀ name ∈ expectedNames,
        (fsAll (JsonReadResult.ok (PyVal.list [PyVal.int 1]))).pathExists
          (pathJoin "b" name) = true) ∧
    (fsAll (JsonReadResult.ok (PyVal.list [PyVal.int 1]))).readJson (manifestPath "b")
        = JsonReadResult.ok (PyVal.list [PyVal.int 1]) ∧
    ¬ ((main (fsAll (JsonReadResult.ok (PyVal.list [PyVal.int 1]))) "b").result
          = Except.ok 0 ∧
        ∃ l ∈ (main (fsAll (JsonReadResult.ok (PyVal.list [PyVal.int 1]))) "b").lines,
          strContains l "ALL CHECKS PASSED" = true) := by
  refine ⟨fun name _ => rfl, rfl, fun h => ?_⟩
  have hr : (main (fsAll (JsonReadResult.ok (PyVal.list [PyVal.int 1]))) "b").result
      = Except.error (attrGetMsg (PyVal.list [PyVal.int 1])) := by decide
  exact absurd (h.1.symm.trans hr) (by decide)

/-- C1 (amended): when every expected path is present and the manifest
parses to a JSON object, `main` returns exit code 0 and the output
contains the `ALL CHECKS PASSED` line. -/
theorem C1_all_present_passes (fs : FS) (base : String) (kvs : List (String × PyVal))
    (hm : fs.readJson (manifestPath base) = JsonReadResult.ok (PyVal.dict kvs))
    (hex : ∀ name ∈ expectedNames, fs.pathExists (pathJoin base name) = true) :
    (main fs base).result = Except.ok 0 ∧
    ∃ l ∈ (main fs base).lines, strContains l "ALL CHECKS PASSED" = true := by
  obtain ⟨L1, L2, L3, L4, hL, hmain⟩ :=
    main_ok_branch fs base (PyVal.dict kvs) _ hm (fieldBlock_dict kvs)
  have hex14 : ∀ fd ∈ all14, fs.pathExists (pathJoin base fd.1) = true := fun fd h =>
    hex fd.1 (List.mem_cons_of_mem _ (List.mem_map_of_mem Prod.fst h))
  have hT := checkFiles_all_ok fs base all14 hex14
  rw [hmain]
  constructor
  · simp [hT]
  · refine ⟨"[SUCCESS] ALL CHECKS PASSED!", ?_, by decide⟩
    simp [hT, successLines]

/-- Witness for the amended C1 at a concrete filesystem with everything
present and an object manifest. -/
theorem C1_witness :
    (main (fsAll (JsonReadResult.ok (PyVal.dict [("name", PyVal.str "BrainMark")]))) "b").result
        = Except.ok 0 ∧
    ∃ l ∈ (main (fsAll (JsonReadResult.ok (PyVal.dict [("name", PyVal.str "BrainMark")]))) "b").lines,
      strContains l "ALL CHECKS PASSED" = true :=
  C1_all_present_passes (fsAll (JsonReadResult.ok (PyVal.dict [("name", PyVal.str "BrainMark")])))
    "b" [("name", PyVal.str "BrainMark")] rfl (by decide)

/-- Counterexample to C2 as stated: `sidepanel.html` is the only absent
expected path and the manifest is syntactically valid JSON (the array
`[1]`), yet no `MISSING` line is ever printed — `main` dies on an
`AttributeError` before reaching any file check. -/
theorem C2_counterexample :
    (fsDrop (pathJoin "b" "sidepanel.html") (JsonReadResult.ok (PyVal.list [PyVal.int 1]))).pathExists
        (pathJoin "b" "sidepanel.html") = false ∧
    (∀ name ∈ expectedNames, name ≠ "sidepanel.html" →
        (fsDrop (pathJoin "b" "sidepanel.html") (JsonReadResult.ok (PyVal.list [PyVal.int 1]))).pathExists
          (pathJoin "b" name) = true) ∧
    (fsDrop (pathJoin "b" "sidepanel.html") (JsonReadResult.ok (PyVal.list [PyVal.int 1]))).readJson
        (manifestPath "b") = JsonReadResult.ok (PyVal.list [PyVal.int 1]) ∧
    (∀ l ∈ (main (fsDrop (pathJoin "b" "sidepanel.html")
          (JsonReadResult.ok (PyVal.list [PyVal.int 1]))) "b").lines,
        strContains l "MISSING" = false) ∧
    (main (fsDrop (pathJoin "b" "sidepanel.html")
        (JsonReadResult.ok (PyVal.list [PyVal.int 1]))) "b").result
      = Except.error (attrGetMsg (PyVal.list [PyVal.int 1])) := by
  refine ⟨by decide, by decide, rfl, by decide, by decide⟩

/-- C2 (amended): when the manifest parses to a JSON object and exactly
one of the fourteen checked non-manifest paths is absent, `main` returns
exit code 1 and prints the `MISSING` report line naming that path.  (The
manifest itself cannot simultaneously be absent and be valid JSON; its
absence is reported as an `Error reading` line instead.) -/
theorem C2_single_missing_reported (fs : FS) (base p dp : String)
    (kvs : List (String × PyVal)) (hmem : (p, dp) ∈ all14)
    (hm : fs.readJson (manifestPath base) = JsonReadResult.ok (PyVal.dict kvs))
    (habs : fs.pathExists (pathJoin base p) = false)
    (hex : ∀ fd ∈ all14, fd.1 ≠ p → fs.pathExists (pathJoin base fd.1) = true) :
    (main fs base).result = Except.ok 1 ∧
    missingLineF base (p, dp) ∈ (main fs base).lines := by
  obtain ⟨pre, post, hdec⟩ := List.append_of_mem hmem
  have hnd : (all14.map Prod.fst).Nodup := by decide
  rw [hdec] at hnd
  simp only [List.map_append, List.map_cons] at hnd
  have hdisj := List.disjoint_of_nodup_append hnd
  have hppre : ∀ y ∈ pre, y.1 ≠ p := by
    intro y hy hyp
    exact hdisj (List.mem_map_of_mem Prod.fst hy) (by rw [hyp]; exact List.mem_cons_self _ _)
  have hpre : ∀ y ∈ pre, fs.pathExists (pathJoin base y.1) = true := fun y hy =>
    hex y (hdec ▸ List.mem_append_left _ hy) (hppre y hy)
  have hT := checkFiles_first_fail fs base (p, dp) post habs pre hpre
  rw [← hdec] at hT
  obtain ⟨L1, L2, L3, L4, hL, hmain⟩ :=
    main_ok_branch fs base (PyVal.dict kvs) _ hm (fieldBlock_dict kvs)
  rw [hmain]
  constructor
  · simp [hT]
  · have hmem2 : missingLineF base (p, dp) ∈ L1 ++ L2 ++ L3 ++ L4 := by
      rw [← hL, hT]
      simp
    simp only [List.mem_append] at hmem2
    rcases hmem2 with ((h | h) | h) | h <;> simp [h]

/-- Witness for the amended C2: only `scripts/background.js` is absent. -/
theorem C2_witness :
    (main (fsDrop (pathJoin "b" "scripts/background.js")
        (JsonReadResult.ok (PyVal.dict [("name", PyVal.str "BrainMark")]))) "b").result
      = Except.ok 1 ∧
    missingLineF "b" ("scripts/background.js", "Background worker")
      ∈ (main (fsDrop (pathJoin "b" "scripts/background.js")
          (JsonReadResult.ok (PyVal.dict [("name", PyVal.str "BrainMark")]))) "b").lines :=
  C2_single_missing_reported
    (fsDrop (pathJoin "b" "scripts/background.js")
      (JsonReadResult.ok (PyVal.dict [("name", PyVal.str "BrainMark")])))
    "b" "scripts/background.js" "Background worker" [("name", PyVal.str "BrainMark")]
    (by decide) rfl (by decide) (by decide)

/-- Counterexample to C4 as stated: the manifest parses to the empty JSON
object, so `name`, `version` and `manifest_version` are all absent, every
expected file exists — and `main` returns 0 but never prints `None`,
because the falsy empty dict makes the whole field block get skipped. -/
theorem C4_counterexample :
    (fsAll (JsonReadResult.ok (PyVal.dict []))).readJson (manifestPath "b")
        = JsonReadResult.ok (PyVal.dict []) ∧
    (∀ name ∈ expectedNames,
        (fsAll (JsonReadResult.ok (PyVal.dict []))).pathExists (pathJoin "b" name) = true) ∧
    (main (fsAll (JsonReadResult.ok (PyVal.dict []))) "b").result = Except.ok 0 ∧
    ∀ l ∈ (main (fsAll (JsonReadResult.ok (PyVal.dict []))) "b").lines,
      strContains l "None" = false := by
  refine ⟨rfl, by decide, by decide, by decide⟩

/-- C4 (amended): when the manifest parses to a non-empty JSON object,
`main` prints `None` as the value of each of the three display fields that
is absent, and the absence of those fields alone does not cause failure:
if additionally every expected file exists, `main` returns 0. -/
theorem C4_missing_fields_print_none (fs : FS) (base : String)
    (kvs : List (String × PyVal))
    (hm : fs.readJson (manifestPath base) = JsonReadResult.ok (PyVal.dict kvs))
    (hne : kvs ≠ []) :
    ((List.lookup "name" kvs = Option.none →
        "   Name: None" ∈ (main fs base).lines) ∧
     (List.lookup "version" kvs = Option.none →
        "   Version: None" ∈ (main fs base).lines) ∧
     (List.lookup "manifest_version" kvs = Option.none →
        "   Manifest Version: None" ∈ (main fs base).lines)) ∧
    ((∀ name ∈ expectedNames, fs.pathExists (pathJoin base name) = true) →
      (main fs base).result = Except.ok 0) := by
  have hemp : kvs.isEmpty = false := by
    cases kvs with
    | nil => exact absurd rfl hne
    | cons a t => rfl
  have hfb := fieldBlock_dict kvs
  rw [hemp] at hfb
  simp only [Bool.false_eq_true, if_false] at hfb
  obtain ⟨L1, L2, L3, L4, hL, hmain⟩ :=
    main_ok_branch fs base (PyVal.dict kvs) _ hm hfb
  constructor
  · refine ⟨fun h => ?_, fun h => ?_, fun h => ?_⟩ <;>
      · rw [hmain]
        simp [h, pyStr, pyRepr]
  · intro hex
    have hex14 : ∀ fd ∈ all14, fs.pathExists (pathJoin base fd.1) = true := fun fd h =>
      hex fd.1 (List.mem_cons_of_mem _ (List.mem_map_of_mem Prod.fst h))
    have hT := checkFiles_all_ok fs base all14 hex14
    rw [hmain]
    simp [hT]

/-- Witness for the amended C4: `version` is present, `name` and
`manifest_version` are absent, every file exists. -/
theorem C4_witness :
    ((List.lookup "name" [("version", PyVal.str "1.0")] = Option.none →
        "   Name: None"
          ∈ (main (fsAll (JsonReadResult.ok (PyVal.dict [("version", PyVal.str "1.0")]))) "b").lines) ∧
     (List.lookup "version" [("version", PyVal.str "1.0")] = Option.none →
        "   Version: None"
          ∈ (main (fsAll (JsonReadResult.ok (PyVal.dict [("version", PyVal.str "1.0")]))) "b").lines) ∧
     (List.lookup "manifest_version" [("version", PyVal.str "1.0")] = Option.none →
        "   Manifest Version: None"
          ∈ (main (fsAll (JsonReadResult.ok (PyVal.dict [("version", PyVal.str "1.0")]))) "b").lines)) ∧
    ((∀ name ∈ expectedNames,
        (fsAll (JsonReadResult.ok (PyVal.dict [("version", PyVal.str "1.0")]))).pathExists
          (pathJoin "b" name) = true) →
      (main (fsAll (JsonReadResult.ok (PyVal.dict [("version", PyVal.str "1.0")]))) "b").result
        = Except.ok 0) :=
  C4_missing_fields_print_none (fsAll (JsonReadResult.ok (PyVal.dict [("version", PyVal.str "1.0")])))
    "b" [("version", PyVal.str "1.0")] rfl (fun h => List.noConfusion h)

/-- Counterexample to C5 as stated: with a malformed manifest every file
check is skipped, so no report line is printed for `sidepanel.html` (nor
any other checked path) even though the file exists — the claimed
per-path report lines do not appear in every filesystem state. -/
theorem C5_counterexample :
    (∀ name ∈ expectedNames,
        (fsAll (JsonReadResult.decodeError "bad")).pathExists (pathJoin "b" name) = true) ∧
    (main (fsAll (JsonReadResult.decodeError "bad")) "b").result = Except.ok 1 ∧
    ∀ l ∈ (main (fsAll (JsonReadResult.decodeError "bad")) "b").lines,
      strContains l (pathJoin "b" "sidepanel.html") = false := by
  refine ⟨by decide, by decide, by decide⟩

/-- C5 (amended): when the manifest parses to a JSON object and all
fourteen checked files exist, `main` prints the `[OK]` existence-and-size
report line for each of the fourteen non-manifest paths, then the
summary, and returns exit code 0. -/
theorem C5_reports_all_fourteen (fs : FS) (base : String)
    (kvs : List (String × PyVal))
    (hm : fs.readJson (manifestPath base) = JsonReadResult.ok (PyVal.dict kvs))
    (hex : ∀ fd ∈ all14, fs.pathExists (pathJoin base fd.1) = true) :
    (∀ fd ∈ all14, okLineF fs base fd ∈ (main fs base).lines) ∧
    "[SUCCESS] ALL CHECKS PASSED!" ∈ (main fs base).lines ∧
    (main fs base).result = Except.ok 0 := by
  obtain ⟨L1, L2, L3, L4, hL, hmain⟩ :=
    main_ok_branch fs base (PyVal.dict kvs) _ hm (fieldBlock_dict kvs)
  have hT := checkFiles_all_ok fs base all14 hex
  refine ⟨?_, ?_, ?_⟩
  · intro fd hfd
    have hmem2 : okLineF fs base fd ∈ L1 ++ L2 ++ L3 ++ L4 := by
      rw [← hL, hT]
      exact List.mem_map_of_mem _ hfd
    rw [hmain]
    simp only [List.mem_append] at hmem2
    rcases hmem2 with ((h | h) | h) | h <;> simp [h]
  · rw [hmain]
    simp [hT, successLines]
  · rw [hmain]
    simp [hT]

/-- Witness for the amended C5 at a concrete all-present filesystem. -/
theorem C5_witness :
    (∀ fd ∈ all14,
        okLineF (fsAll (JsonReadResult.ok (PyVal.dict [("name", PyVal.str "B")]))) "b" fd
          ∈ (main (fsAll (JsonReadResult.ok (PyVal.dict [("name", PyVal.str "B")]))) "b").lines) ∧
    "[SUCCESS] ALL CHECKS PASSED!"
      ∈ (main (fsAll (JsonReadResult.ok (PyVal.dict [("name", PyVal.str "B")]))) "b").lines ∧
    (main (fsAll (JsonReadResult.ok (PyVal.dict [("name", PyVal.str "B")]))) "b").result
      = Except.ok 0 :=
  C5_reports_all_fourteen (fsAll (JsonReadResult.ok (PyVal.dict [("name", PyVal.str "B")])))
    "b" [("name", PyVal.str "B")] rfl (by decide)

/-- Counterexample to C6 as stated: a checked path (`styles/variables.css`)
does not exist, yet the run does not degrade to a failure line and a
nonzero exit — it aborts with an uncaught `AttributeError`, because the
manifest parses to the truthy non-object `"x"`. -/
theorem C6_counterexample :
    (fsDrop (pathJoin "b" "styles/variables.css") (JsonReadResult.ok (PyVal.str "x"))).pathExists
        (pathJoin "b" "styles/variables.css") = false ∧
    (main (fsDrop (pathJoin "b" "styles/variables.css")
        (JsonReadResult.ok (PyVal.str "x"))) "b").result
      = Except.error (attrGetMsg (PyVal.str "x")) ∧
    ∀ l ∈ (main (fsDrop (pathJoin "b" "styles/variables.css")
        (JsonReadResult.ok (PyVal.str "x"))) "b").lines,
      strContains l "MISSING" = false := by
  refine ⟨by decide, by decide, by decide⟩

/-- C6 (amended): as long as the manifest does not parse to a truthy
non-object, each recoverable condition degrades to a printed failure line
plus exit code 1: malformed JSON yields the `Invalid JSON in` line, a
missing or unreadable manifest yields the `Error reading` line, and — when
the manifest parses to an object — an absent checked path yields the
`MISSING` line of the first absent file. -/
theorem C6_recoverable_errors (fs : FS) (base : String) :
    (∀ e, fs.readJson (manifestPath base) = JsonReadResult.decodeError e →
      (main fs base).result = Except.ok 1 ∧
      "[FAIL] Invalid JSON in " ++ manifestPath base ++ ": " ++ e ∈ (main fs base).lines) ∧
    (∀ e, fs.readJson (manifestPath base) = JsonReadResult.readError e →
      (main fs base).result = Except.ok 1 ∧
      "[FAIL] Error reading " ++ manifestPath base ++ ": " ++ e ∈ (main fs base).lines) ∧
    (∀ kvs, fs.readJson (manifestPath base) = JsonReadResult.ok (PyVal.dict kvs) →
      (∃ fd ∈ all14, fs.pathExists (pathJoin base fd.1) = false) →
      (main fs base).result = Except.ok 1 ∧
      ∃ fd ∈ all14, fs.pathExists (pathJoin base fd.1) = false ∧
        missingLineF base fd ∈ (main fs base).lines) := by
  refine ⟨fun e hm => ?_, fun e hm => ?_, fun kvs hm hab => ?_⟩
  · rw [main_invalid_json fs base e hm]
    exact ⟨rfl, by simp [headerLines]⟩
  · rw [main_read_err fs base e hm]
    exact ⟨rfl, by simp [headerLines]⟩
  · have hall : all14.all (fun fd => fs.pathExists (pathJoin base fd.1)) = false := by
      obtain ⟨fd, hfd, hf⟩ := hab
      exact List.all_eq_false.2 ⟨fd, hfd, by simp [hf]⟩
    obtain ⟨pre, x, post, hdec, hpre, hx⟩ := exists_first_fail fs base all14 hall
    have hT := checkFiles_first_fail fs base x post hx pre hpre
    rw [← hdec] at hT
    obtain ⟨L1, L2, L3, L4, hL, hmain⟩ :=
      main_ok_branch fs base (PyVal.dict kvs) _ hm (fieldBlock_dict kvs)
    have hxmem : x ∈ all14 := hdec ▸ List.mem_append_right _ (List.mem_cons_self _ _)
    refine ⟨?_, x, hxmem, hx, ?_⟩
    · rw [hmain]
      simp [hT]
    · have hmem2 : missingLineF base x ∈ L1 ++ L2 ++ L3 ++ L4 := by
        rw [← hL, hT]
        simp
      rw [hmain]
      simp only [List.mem_append] at hmem2
      rcases hmem2 with ((h | h) | h) | h <;> simp [h]

/-- Witness for the amended C6: an unreadable manifest degrades to the
`Error reading` line and exit code 1. -/
theorem C6_witness :
    (main (fsAll (JsonReadResult.readError "No such file or directory")) "b").result
        = Except.ok 1 ∧
    "[FAIL] Error reading " ++ manifestPath "b" ++ ": " ++ "No such file or directory"
      ∈ (main (fsAll (JsonReadResult.readError "No such file or directory")) "b").lines :=
  (C6_recoverable_errors (fsAll (JsonReadResult.readError "No such file or directory")) "b").2.1
    "No such file or directory" rfl

/-- C7: every filesystem event of any run is a read-only access (an open,
a stat or a size probe) of one of the fifteen fixed expected paths under
the script's directory; in particular the program never writes or deletes
anything and the filesystem state is left unchanged. -/
theorem C7_reads_only_fixed_paths (fs : FS) (base : String) :
    ∀ ev ∈ (main fs base).events, ∃ name ∈ expectedNames,
      ev = Event.openE (pathJoin base name) ∨ ev = Event.statE (pathJoin base name) ∨
        ev = Event.sizeE (pathJoin base name) := by
  intro ev hev
  rcases hr : fs.readJson (manifestPath base) with d | e | e
  · cases hfb : fieldBlock true (some d) with
    | error msg =>
        rw [main_field_err fs base d msg hr hfb] at hev
        simp at hev
        exact ⟨"manifest.json", by decide, Or.inl (by rw [hev]; rfl)⟩
    | ok fl =>
        obtain ⟨L1, L2, L3, L4, hL, hmain⟩ := main_ok_branch fs base d fl hr hfb
        rw [hmain] at hev
        rcases List.mem_cons.1 hev with rfl | hev2
        · exact ⟨"manifest.json", by decide, Or.inl rfl⟩
        · obtain ⟨fd, hfd, hor⟩ := checkFiles_events_sub fs base all14 true ev hev2
          exact ⟨fd.1, List.mem_cons_of_mem _ (List.mem_map_of_mem Prod.fst hfd), Or.inr hor⟩
  · rw [main_invalid_json fs base e hr] at hev
    simp at hev
    exact ⟨"manifest.json", by decide, Or.inl (by rw [hev]; rfl)⟩
  · rw [main_read_err fs base e hr] at hev
    simp at hev
    exact ⟨"manifest.json", by decide, Or.inl (by rw [hev]; rfl)⟩

/-- Witness for C7: the manifest open event of a concrete run is a read
of an expected path. -/
theorem C7_witness :
    ∃ name ∈ expectedNames,
      Event.openE (pathJoin "b" "manifest.json") = Event.openE (pathJoin "b" name) ∨
      Event.openE (pathJoin "b" "manifest.json") = Event.statE (pathJoin "b" name) ∨
      Event.openE (pathJoin "b" "manifest.json") = Event.sizeE (pathJoin "b" name) :=
  C7_reads_only_fixed_paths (fsAll (JsonReadResult.ok (PyVal.dict []))) "b"
    (Event.openE (pathJoin "b" "manifest.json")) (by decide)

/-- C10: in a run that terminates normally, once the accumulated validity
is already false before checked path `p`'s turn (the manifest check or an
earlier file check failed), `p`'s `check_file_exists` call is
short-circuited away: `p` is neither stat'ed nor sized, and neither its
`[OK]` report line nor its `[FAIL] ... MISSING!` report line is printed,
although all five section headers still appear. -/
theorem C10_short_circuit_skips_later_checks (fs : FS) (base p dp : String)
    (hmem : (p, dp) ∈ all14)
    (hprior : priorValid fs base p = false)
    (hnoabort : ∀ msg, (main fs base).result ≠ Except.error msg) :
    Event.statE (pathJoin base p) ∉ (main fs base).events ∧
    Event.sizeE (pathJoin base p) ∉ (main fs base).events ∧
    okLineF fs base (p, dp) ∉ (main fs base).lines ∧
    missingLineF base (p, dp) ∉ (main fs base).lines ∧
    ∀ hdr ∈ sectionHeaders, hdr ∈ (main fs base).lines := by
  rcases hr : fs.readJson (manifestPath base) with d | e | e
  · cases hfb : fieldBlock true (some d) with
    | error msg =>
        exact absurd (congrArg MainOut.result (main_field_err fs base d msg hr hfb))
          (hnoabort msg)
    | ok fl =>
        have hisok : isOkB (fs.readJson (manifestPath base)) = true := by rw [hr]; rfl
        have hW : (all14.takeWhile (fun fd => fd.1 != p)).all
            (fun fd => fs.pathExists (pathJoin base fd.1)) = false := by
          simpa [priorValid, hisok] using hprior
        obtain ⟨pre, x, post1, hWdec, hpre, hx⟩ := exists_first_fail fs base _ hW
        have h0 : all14 = all14.takeWhile (fun fd => fd.1 != p)
            ++ all14.dropWhile (fun fd => fd.1 != p) :=
          (List.takeWhile_append_dropWhile _ _).symm
        have hdec : all14 = pre ++ x ::
            (post1 ++ all14.dropWhile (fun fd => fd.1 != p)) := by
          conv_lhs => rw [h0, hWdec]
          simp
        have hT := checkFiles_first_fail fs base x
          (post1 ++ all14.dropWhile (fun fd => fd.1 != p)) hx pre hpre
        rw [← hdec] at hT
        obtain ⟨L1, L2, L3, L4, hL, hmain⟩ := main_ok_branch fs base d fl hr hfb
        have hpne : ∀ y ∈ pre, y.1 ≠ p := by
          intro y hy
          have hyW : y ∈ all14.takeWhile (fun fd => fd.1 != p) := by
            rw [hWdec]
            exact List.mem_append_left _ hy
          simpa using List.mem_takeWhile_imp hyW
        have hxW : x ∈ all14.takeWhile (fun fd => fd.1 != p) := by
          rw [hWdec]
          exact List.mem_append_right _ (List.mem_cons_self _ _)
        have hxne : x.1 ≠ p := by
          simpa using List.mem_takeWhile_imp hxW
        have hxall : x ∈ all14 := by
          rw [h0]
          exact List.mem_append_left _ hxW
        have hpall : ∀ y ∈ pre, y ∈ all14 := by
          intro y hy
          rw [h0]
          refine List.mem_append_left _ ?_
          rw [hWdec]
          exact List.mem_append_left _ hy
        have hCL : (checkFiles fs base all14 true).2.1
            = pre.map (okLineF fs base) ++ [missingLineF base x] := by
          rw [hT]
        have hcfalse : (checkFiles fs base all14 true).2.2 = false := by
          rw [hT]
        have hsplit := mainlines_split fs base d fl
          (pre.map (okLineF fs base) ++ [missingLineF base x]) false hr hfb hCL hcfalse
        have hev : (main fs base).events = Event.openE (manifestPath base) ::
            (statEvents base pre ++ [Event.statE (pathJoin base x.1)]) := by
          rw [hmain, hT]
        refine ⟨?_, ?_, ?_, ?_, ?_⟩
        · rw [hev]
          intro hin
          rcases List.mem_cons.1 hin with h | h
          · exact Event.noConfusion h
          · rcases List.mem_append.1 h with h2 | h2
            · obtain ⟨fd, hfd, h3⟩ := List.mem_flatMap.1 h2
              simp only [List.mem_cons, List.not_mem_nil, or_false] at h3
              rcases h3 with h3 | h3
              · exact hpne fd hfd (pathJoin_inj (Event.statE.inj h3)).symm
              · exact Event.noConfusion h3
            · simp only [List.mem_cons, List.not_mem_nil, or_false] at h2
              exact hxne (pathJoin_inj (Event.statE.inj h2)).symm
        · rw [hev]
          intro hin
          rcases List.mem_cons.1 hin with h | h
          · exact Event.noConfusion h
          · rcases List.mem_append.1 h with h2 | h2
            · obtain ⟨fd, hfd, h3⟩ := List.mem_flatMap.1 h2
              simp only [List.mem_cons, List.not_mem_nil, or_false] at h3
              rcases h3 with h3 | h3
              · exact Event.noConfusion h3
              · exact hpne fd hfd (pathJoin_inj (Event.sizeE.inj h3)).symm
            · simp only [List.mem_cons, List.not_mem_nil, or_false] at h2
              exact Event.noConfusion h2
        · intro hin
          rcases hsplit _ hin with h | h | h | h | h | h | h | h | h
          · exact absurd h (ok_ne_const_of _ _ _ _ (by decide))
          · exact absurd h (ok_ne_const_of _ _ _ _ (by decide))
          · exact absurd h (ok_ne_const_of _ _ _ _ (by decide))
          · simp only [sectionHeaders, List.mem_cons, List.not_mem_nil, or_false] at h
            rcases h with h | h | h | h | h <;>
              exact absurd h (ok_ne_const_of _ _ _ _ (by decide))
          · exact absurd h (ok_ne_jsonline (p, dp) hmem fs base)
          · rcases fieldBlock_shape d fl hfb with rfl | ⟨a, b, cc, rfl⟩
            · exact absurd h (List.not_mem_nil _)
            · simp only [List.mem_cons, List.not_mem_nil, or_false] at h
              rcases h with h | h | h <;>
                exact absurd h (ok_ne_app1_of _ _ _ _ _ (by decide))
          · rcases List.mem_append.1 h with h2 | h2
            · obtain ⟨y, hy, heq⟩ := List.mem_map.1 h2
              exact absurd heq (ok_pairwise y (hpall y hy) (p, dp) hmem (hpne y hy) fs fs base)
            · simp only [List.mem_cons, List.not_mem_nil, or_false] at h2
              exact absurd h2.symm (missing_ne_okline base x fs (p, dp))
          · simp only [successLines, List.mem_cons, List.not_mem_nil, or_false] at h
            rcases h with h | h | h | h | h | h | h | h | h | h <;>
              first
                | exact absurd h (ok_ne_const_of _ _ _ _ (by decide))
                | exact absurd h (ok_ne_app1_of _ _ _ _ _ (by decide))
          · simp only [failureLines, List.mem_cons, List.not_mem_nil, or_false] at h
            rcases h with h | h | h | h <;>
              exact absurd h (ok_ne_const_of _ _ _ _ (by decide))
        · intro hin
          rcases hsplit _ hin with h | h | h | h | h | h | h | h | h
          · exact absurd h (missing_ne_const_of _ _ _ (by decide))
          · exact absurd h (missing_ne_const_of _ _ _ (by decide))
          · exact absurd h (missing_ne_const_of _ _ _ (by decide))
          · simp only [sectionHeaders, List.mem_cons, List.not_mem_nil, or_false] at h
            rcases h with h | h | h | h | h <;>
              exact absurd h (missing_ne_const_of _ _ _ (by decide))
          · exact absurd h (missing_ne_app1_of _ _ _ _ (by decide))
          · rcases fieldBlock_shape d fl hfb with rfl | ⟨a, b, cc, rfl⟩
            · exact absurd h (List.not_mem_nil _)
            · simp only [List.mem_cons, List.not_mem_nil, or_false] at h
              rcases h with h | h | h <;>
                exact absurd h (missing_ne_app1_of _ _ _ _ (by decide))
          · rcases List.mem_append.1 h with h2 | h2
            · obtain ⟨y, hy, heq⟩ := List.mem_map.1 h2
              exact absurd heq.symm (missing_ne_okline base (p, dp) fs y)
            · simp only [List.mem_cons, List.not_mem_nil, or_false] at h2
              exact absurd h2 (missing_pairwise (p, dp) hmem x hxall (fun hh => hxne hh.symm) base)
          · simp only [successLines, List.mem_cons, List.not_mem_nil, or_false] at h
            rcases h with h | h | h | h | h | h | h | h | h | h <;>
              first
                | exact absurd h (missing_ne_const_of _ _ _ (by decide))
                | exact absurd h (missing_ne_app1_of _ _ _ _ (by decide))
          · simp only [failureLines, List.mem_cons, List.not_mem_nil, or_false] at h
            rcases h with h | h | h | h <;>
              exact absurd h (missing_ne_const_of _ _ _ (by decide))
        · intro hdr hh
          rw [hmain]
          simp only [sectionHeaders, List.mem_cons, List.not_mem_nil, or_false] at hh
          rcases hh with rfl | rfl | rfl | rfl | rfl <;> simp
  · rw [main_invalid_json fs base e hr]
    refine ⟨by simp, by simp, ?_, ?_, ?_⟩
    · intro hin
      simp only [headerLines, failureLines, List.mem_append, List.mem_cons,
        List.not_mem_nil, or_false] at hin
      rcases hin with ((h | h | h | h) | h | h | h | h | h | h | h | h | h | h | h | h) | h | h | h | h <;>
        first
          | exact absurd h (ok_ne_const_of _ _ _ _ (by decide))
          | exact absurd h (ok_ne_app3_of _ _ _ _ _ _ _ (by decide))
    · intro hin
      simp only [headerLines, failureLines, List.mem_append, List.mem_cons,
        List.not_mem_nil, or_false] at hin
      rcases hin with ((h | h | h | h) | h | h | h | h | h | h | h | h | h | h | h | h) | h | h | h | h <;>
        first
          | exact absurd h (missing_ne_const_of _ _ _ (by decide))
          | exact absurd h (missing_ne_invalid (p, dp) hmem base e)
    · intro hdr hh
      simp only [sectionHeaders, List.mem_cons, List.not_mem_nil, or_false] at hh
      rcases hh with rfl | rfl | rfl | rfl | rfl <;> simp [headerLines]
  · rw [main_read_err fs base e hr]
    refine ⟨by simp, by simp, ?_, ?_, ?_⟩
    · intro hin
      simp only [headerLines, failureLines, List.mem_append, List.mem_cons,
        List.not_mem_nil, or_false] at hin
      rcases hin with ((h | h | h | h) | h | h | h | h | h | h | h | h | h | h | h | h) | h | h | h | h <;>
        first
          | exact absurd h (ok_ne_const_of _ _ _ _ (by decide))
          | exact absurd h (ok_ne_app3_of _ _ _ _ _ _ _ (by decide))
    · intro hin
      simp only [headerLines, failureLines, List.mem_append, List.mem_cons,
        List.not_mem_nil, or_false] at hin
      rcases hin with ((h | h | h | h) | h | h | h | h | h | h | h | h | h | h | h | h) | h | h | h | h <;>
        first
          | exact absurd h (missing_ne_const_of _ _ _ (by decide))
          | exact absurd h (missing_ne_readerr (p, dp) hmem base e)
    · intro hdr hh
      simp only [sectionHeaders, List.mem_cons, List.not_mem_nil, or_false] at hh
      rcases hh with rfl | rfl | rfl | rfl | rfl <;> simp [headerLines]

/-- Witness for C10: with `sidepanel.html` absent, the later checked path
`styles/variables.css` is never stat'ed and gets no report line, although
the headers appear. -/
theorem C10_witness :
    Event.statE (pathJoin "b" "styles/variables.css")
        ∉ (main (fsDrop (pathJoin "b" "sidepanel.html")
            (JsonReadResult.ok (PyVal.dict [("name", PyVal.str "B")]))) "b").events ∧
    Event.sizeE (pathJoin "b" "styles/variables.css")
        ∉ (main (fsDrop (pathJoin "b" "sidepanel.html")
            (JsonReadResult.ok (PyVal.dict [("name", PyVal.str "B")]))) "b").events ∧
    okLineF (fsDrop (pathJoin "b" "sidepanel.html")
        (JsonReadResult.ok (PyVal.dict [("name", PyVal.str "B")]))) "b"
        ("styles/variables.css", "Design tokens")
      ∉ (main (fsDrop (pathJoin "b" "sidepanel.html")
          (JsonReadResult.ok (PyVal.dict [("name", PyVal.str "B")]))) "b").lines ∧
    missingLineF "b" ("styles/variables.css", "Design tokens")
      ∉ (main (fsDrop (pathJoin "b" "sidepanel.html")
          (JsonReadResult.ok (PyVal.dict [("name", PyVal.str "B")]))) "b").lines ∧
    ∀ hdr ∈ sectionHeaders,
      hdr ∈ (main (fsDrop (pathJoin "b" "sidepanel.html")
          (JsonReadResult.ok (PyVal.dict [("name", PyVal.str "B")]))) "b").lines :=
  C10_short_circuit_skips_later_checks
    (fsDrop (pathJoin "b" "sidepanel.html")
      (JsonReadResult.ok (PyVal.dict [("name", PyVal.str "B")])))
    "b" "styles/variables.css" "Design tokens" (by decide) (by decide)
    (fun msg h => by
      have hres : (main (fsDrop (pathJoin "b" "sidepanel.html")
          (JsonReadResult.ok (PyVal.dict [("name", PyVal.str "B")]))) "b").result
        = Except.ok 1 := by decide
      rw [hres] at h
      exact Except.noConfusion h)

end BrainMark
